import Mathlib

/-!
Verification of the PPP e-book library manager (Salvodif/PPP).

This file shallowly embeds the add-book workflow
(Terminals/NewPyTerminalPPP/actions/add_book_logic.py), the author-name
normalizer (Terminals/NewPyTerminalPPP/normalize.py) and the
BookManager record store (Terminals/NewPyTerminalPPP/models.py) in Lean,
and proves or refutes the specification claims about them.

Modelling conventions:
  - Python strings are modelled as `List Char` (abbreviated `Str`); the
    ASCII whitespace characters recognised by `str.strip()` are modelled
    by `isPySpace` (the rare non-ASCII Unicode whitespace is out of scope).
  - `str.upper()` / `str.lower()` are modelled by `Char.toUpper` /
    `Char.toLower`, which agree with Python on ASCII; the only uses in the
    source compare against ASCII literals.
  - The filesystem is a map from path strings to file-content identifiers
    plus a set of directories; `shutil.move` and `Path.mkdir` are explicit
    state transformers.  OSError-class failures of the move and failures of
    the TinyDB insert are modelled by fault flags in an `Env` record, with
    the corresponding exception texts carried as uninterpreted strings.
  - `datetime` instants are modelled as abstract integer timestamps.
-/

set_option maxRecDepth 10000

abbrev Str := List Char

/-- Whitespace characters removed by Python `str.strip()` (ASCII range). -/
def isPySpace (c : Char) : Bool :=
  c == ' ' || c == '\t' || c == '\n' || c == '\r' || c == '\x0b' || c == '\x0c'

/-- Python `str.lstrip()`. -/
def stripLeft (l : Str) : Str := l.dropWhile isPySpace

/-- Python `str.rstrip()`. -/
def stripRight (l : Str) : Str := (l.reverse.dropWhile isPySpace).reverse

/-- Python `str.strip()`: drop leading and trailing whitespace. -/
def pyStrip (l : Str) : Str := stripRight (stripLeft l)

/-- Python `str.split(sep)` for a single-character separator: every
occurrence of `sep` splits, and empty pieces are kept, so splitting the
empty string yields one empty piece. -/
def splitOnChar (sep : Char) : Str → List Str
  | [] => [[]]
  | c :: cs =>
    let r := splitOnChar sep cs
    if c = sep then [] :: r
    else
      match r with
      | [] => [[c]]
      | h :: t => (c :: h) :: t

/--
Embeds `normalize_author_for_path` (normalize.py):

    if not author_name: return ""
    cleaned_name = author_name.strip()
    if cleaned_name.upper() == "AA.VV.": return "AAVV"
    else: return cleaned_name.replace(".", "")
-/
def normalizeAuthorForPath (l : Str) : Str :=
  if l = [] then []
  else
    let cleaned := pyStrip l
    if cleaned.map Char.toUpper = ("AA.VV.").data then ("AAVV").data
    else cleaned.filter (fun c => c != '.')

/-- The function `normalize_author_for_path` at the `String` level. -/
def normalize_author_for_path (s : String) : String :=
  ⟨normalizeAuthorForPath s.data⟩

/--
Embeds the tag preprocessing of `process_add_book` (add_book_logic.py
line 74): `[tag.strip() for tag in tags_str.split(',') if tag.strip()]`.
-/
def pyTags (s : Str) : List Str :=
  ((splitOnChar ',' s).map pyStrip).filter (fun t => !t.isEmpty)

/-- The `pathlib` `/` join; an empty right operand is dropped, as in
`PurePath('a') / ''`. -/
def pathJoin (a b : Str) : Str := if b = [] then a else a ++ '/' :: b

/-- The final component of a slash-separated path (`PurePath.name`);
trailing and repeated slashes are ignored as pathlib normalises them.
(`.`/`..` components are outside the model.) -/
def pathName (p : Str) : Str :=
  (((splitOnChar '/' p).filter (fun s => !s.isEmpty)).getLast?).getD []

/-- Index of the last occurrence of `c` in `l`, Python `str.rfind`. -/
def lastIdxOf (c : Char) (l : Str) : Option Nat :=
  match l.reverse.findIdx? (· == c) with
  | some j => some (l.length - 1 - j)
  | none => none

/-- Embeds `PurePath.suffix`: the extension of the final path component, empty
unless the last dot sits strictly inside the name. -/
def pySuffix (p : Str) : Str :=
  let name := pathName p
  match lastIdxOf '.' name with
  | some i => if 0 < i ∧ i < name.length - 1 then name.drop i else []
  | none => []

/-- Python `str.lower()` on ASCII. -/
def pyLower (l : Str) : Str := l.map Char.toLower

/-- The set ALLOWED_EXTENSIONS of add_book_logic.py line 12. -/
def ALLOWED_EXTENSIONS : List Str :=
  [(".pdf").data, (".epub").data, (".docx").data, (".pptx").data]

/-- Filesystem state: files (path ↦ content identifier) and directories. -/
structure FS where
  files : List (Str × Nat)
  dirs : List Str
deriving DecidableEq

/-- Embeds `Path.is_file()`. -/
def FS.isFile (fs : FS) (p : Str) : Bool := (fs.files.lookup p).isSome

/-- Embeds `Path.exists()`: true for files and directories. -/
def FS.pathExists (fs : FS) (p : Str) : Bool := fs.isFile p || fs.dirs.contains p

/-- Embeds `Path.mkdir(parents=True, exist_ok=True)` for the author directory. -/
def FS.mkdirp (fs : FS) (d : Str) : FS :=
  { fs with dirs := if fs.dirs.contains d then fs.dirs else d :: fs.dirs }

/-- Embeds `shutil.move(src, dst)`: remove the file at `src`, create `dst` with
the same content.  No-op if `src` is not a file. -/
def FS.move (fs : FS) (src dst : Str) : FS :=
  match fs.files.lookup src with
  | some content =>
      { fs with files := (dst, content) :: fs.files.filter (fun kv => !(kv.1 == src)) }
  | none => fs

/-- The record inserted into TinyDB by `process_add_book` (no uuid field in
this variant of the schema). -/
structure Entry where
  author : Str
  title : Str
  filename : Str
  tags : List Str
  added : Nat
deriving DecidableEq

/-- The result dictionary of `process_add_book`: it always carries exactly
the keys `success`, `message` and `new_file_path`. -/
structure AddBookResult where
  success : Bool
  message : Str
  new_file_path : Option Str
deriving DecidableEq

/-- Observable side-effect events of one workflow run, in order. -/
inductive FsEvent
  | movedFile (src dst : Str)
  | insertedRecord (e : Entry)
  | movedBack (src dst : Str)
deriving DecidableEq

/-- Environment/fault model for one run: the current time, whether the
file move (`OSError`), the TinyDB insert, and the rollback move raise, and
the exception texts interpolated into the user messages. -/
structure Env where
  now : Nat
  moveFails : Bool
  dbInsertFails : Bool
  rollbackMoveFails : Bool
  moveErrText : Str
  dbErrText : Str
  rollbackErrText : Str
deriving DecidableEq

/-- Output of one `process_add_book` run: result dictionary, final
filesystem, final database table, and the ordered side-effect trace. -/
structure RunOut where
  res : AddBookResult
  fs : FS
  db : List Entry
  trace : List FsEvent
deriving DecidableEq

def failOut (msg : Str) (fs : FS) (db : List Entry) (tr : List FsEvent) : RunOut :=
  ⟨⟨false, msg, none⟩, fs, db, tr⟩

def requiredFieldsMsg : Str :=
  ("Error: File path, Author, and Title are required.").data

def notFoundMsg (src : Str) : Str :=
  ("Error: Source file not found at ").data ++ [Char.ofNat 39] ++ src ++ [Char.ofNat 39]

/-- The f-string joins the extension set; Python set iteration order is
unspecified, one order is fixed here. -/
def invalidTypeMsg : Str :=
  ("Error: Invalid file type. Allowed: .pdf, .epub, .docx, .pptx").data

def targetExistsMsg (target : Str) : Str :=
  ("Error: Target file already exists: ").data ++ [Char.ofNat 39] ++ target ++ [Char.ofNat 39]

def moveErrorMsg (e : Str) : Str := ("Error moving file: ").data ++ e

def dbRevertedMsg (e : Str) : Str :=
  ("Error adding to database: ").data ++ e ++ (". File move reverted.").data

def dbCriticalMsg (e rb : Str) : Str :=
  ("CRITICAL Error adding to DB: ").data ++ e
    ++ (". FAILED TO REVERT FILE MOVE: ").data ++ rb

def addSuccessMsg (author title target : Str) : Str :=
  ("Book added successfully!\nAuthor: ").data ++ author
    ++ ("\nTitle: ").data ++ title
    ++ ("\nFile saved to: ").data ++ target

/-- `new_filename = f"{title} - {author}{source_path.suffix}"`. -/
def new_filename (title author src : Str) : Str :=
  title ++ (" - ").data ++ author ++ pySuffix src

/-- `target_author_dir = library_base_path / normalized_author`. -/
def target_author_dir (libBase author : Str) : Str :=
  pathJoin libBase (normalizeAuthorForPath author)

/-- `target_path = target_author_dir / new_filename`. -/
def target_path (libBase author title src : Str) : Str :=
  pathJoin (target_author_dir libBase author) (new_filename title author src)

/-- The `new_entry` dictionary built at add_book_logic.py lines 76-82. -/
def newEntry (author title tags_str src : Str) (now : Nat) : Entry :=
  ⟨author, title, new_filename title author src, pyTags tags_str, now⟩

/--
Embeds `process_add_book` (add_book_logic.py lines 14-98), step for step:
1. input validation (required fields, source is a file, allowed extension);
2. path/filename preparation and the target-exists collision check;
3. `mkdir` of the author directory and `shutil.move` of the source file;
4. TinyDB insert, with the best-effort reverse move on insert failure;
5. success result.
-/
def process_add_book (src author title tags_str libBase : Str)
    (env : Env) (fs0 : FS) (db0 : List Entry) : RunOut :=
  if src = [] ∨ author = [] ∨ title = [] then
    failOut requiredFieldsMsg fs0 db0 []
  else if fs0.isFile src = false then
    failOut (notFoundMsg src) fs0 db0 []
  else if ALLOWED_EXTENSIONS.contains (pyLower (pySuffix src)) = false then
    failOut invalidTypeMsg fs0 db0 []
  else if fs0.pathExists (target_path libBase author title src) = true then
    failOut (targetExistsMsg (target_path libBase author title src)) fs0 db0 []
  else if env.moveFails = true then
    failOut (moveErrorMsg env.moveErrText)
      (fs0.mkdirp (target_author_dir libBase author)) db0 []
  else if env.dbInsertFails = true then
    if env.rollbackMoveFails = true then
      failOut (dbCriticalMsg env.dbErrText env.rollbackErrText)
        ((fs0.mkdirp (target_author_dir libBase author)).move src
          (target_path libBase author title src))
        db0 [.movedFile src (target_path libBase author title src)]
    else
      failOut (dbRevertedMsg env.dbErrText)
        (((fs0.mkdirp (target_author_dir libBase author)).move src
            (target_path libBase author title src)).move
          (target_path libBase author title src) src)
        db0 [.movedFile src (target_path libBase author title src),
             .movedBack (target_path libBase author title src) src]
  else
    ⟨⟨true, addSuccessMsg author title (target_path libBase author title src),
       some (target_path libBase author title src)⟩,
     (fs0.mkdirp (target_author_dir libBase author)).move src
       (target_path libBase author title src),
     db0 ++ [newEntry author title tags_str src env.now],
     [.movedFile src (target_path libBase author title src),
      .insertedRecord (newEntry author title tags_str src env.now)]⟩

/-! ## Book record store (models.py: Book, BookManager) -/

/-- TinyDB document values.  ISO datetime strings are modelled as abstract
instants (`time`); `num_series` floats as integers (no claim touches their
arithmetic); Python `None` as `null`. -/
inductive Value where
  | str (s : Str)
  | strList (l : List Str)
  | time (t : Int)
  | num (n : Int)
  | null
deriving DecidableEq

/-- A TinyDB document: an ordered dictionary with string keys. -/
abbrev Doc := List (Str × Value)

def lookupDoc (d : Doc) (k : Str) : Option Value := d.lookup k

/-- The `Book` dataclass (models.py lines 10-22). -/
structure Book where
  uuid : Str
  author : Str
  title : Str
  added : Int
  tags : List Str
  filename : Str
  other_formats : List Str
  series : Option Str
  num_series : Option Int
  description : Option Str
  read : Option Str
deriving DecidableEq

def optStrVal : Option Str → Value
  | some s => .str s
  | none => .null

def optNumVal : Option Int → Value
  | some n => .num n
  | none => .null

/-- Embeds `Book.to_dict` (models.py lines 62-75), keys in source order. -/
def Book.to_dict (b : Book) : Doc :=
  [(("uuid").data, .str b.uuid),
   (("author").data, .str b.author),
   (("title").data, .str b.title),
   (("added").data, .time b.added),
   (("tags").data, .strList b.tags),
   (("filename").data, .str b.filename),
   (("other_formats").data, .strList b.other_formats),
   (("series").data, optStrVal b.series),
   (("num_series").data, optNumVal b.num_series),
   (("description").data, optStrVal b.description),
   (("read").data, optStrVal b.read)]

/-- Embeds `Book.from_dict` (models.py lines 24-60).  The uuid, author, title and
added keys raise `KeyError` when absent (here: `none`);
the other fields use `.get` defaults.  The ISO-string date parsing with its
current-time fallback is collapsed to the abstract instant stored under
`added`. -/
def Book.from_dict (d : Doc) : Option Book :=
  match lookupDoc d ("uuid").data, lookupDoc d ("author").data,
        lookupDoc d ("title").data, lookupDoc d ("added").data with
  | some (.str u), some (.str a), some (.str t), some (.time ad) =>
    some
      { uuid := u, author := a, title := t, added := ad
        tags := match lookupDoc d ("tags").data with
                | some (.strList l) => l
                | _ => []
        filename := match lookupDoc d ("filename").data with
                    | some (.str s) => s
                    | _ => []
        other_formats := match lookupDoc d ("other_formats").data with
                         | some (.strList l) => l
                         | _ => []
        series := match lookupDoc d ("series").data with
                  | some (.str s) => some s
                  | _ => none
        num_series := match lookupDoc d ("num_series").data with
                      | some (.num n) => some n
                      | _ => none
        description := match lookupDoc d ("description").data with
                       | some (.str s) => some s
                       | _ => none
        read := match lookupDoc d ("read").data with
                | some (.str s) => some s
                | _ => none }
  | _, _, _, _ => none

/-- Python `dict.update` merge: keys of `d` keep their position (values
overwritten from `nd` where present), new keys of `nd` are appended. -/
def mergeDoc (d nd : Doc) : Doc :=
  d.map (fun kv =>
    match nd.lookup kv.1 with
    | some v => (kv.1, v)
    | none => kv)
  ++ nd.filter (fun kv => (d.lookup kv.1).isNone)

/-- The `BookManager` state: the `books` TinyDB table (in doc-id order, i.e.
insertion order), the read cache, and the dirty flag. -/
structure BMState where
  table : List Doc
  cache : Option (List (Str × Book))
  dirty : Bool
deriving DecidableEq

/-- Python dict assignment `m[k] = v`: overwrite in place, else append. -/
def dictInsert (m : List (Str × Book)) (k : Str) (v : Book) : List (Str × Book) :=
  if (m.lookup k).isSome then
    m.map (fun kv => if kv.1 == k then (k, v) else kv)
  else m ++ [(k, v)]

/-- The dict comprehension of `_ensure_cache` (models.py lines 155-157):
`{book['uuid']: Book.from_dict(book) for book in self.books_table.all()}`.
`none` models a `KeyError`/type failure escaping from `from_dict`. -/
def buildCache (t : List Doc) : Option (List (Str × Book)) :=
  (t.mapM Book.from_dict).map (fun bs => bs.foldl (fun m b => dictInsert m b.uuid b) [])

/-- Embeds `BookManager._ensure_cache` (models.py lines 153-158). -/
def ensureCache (s : BMState) : Option BMState :=
  if s.dirty = true ∨ s.cache = none then
    (buildCache s.table).map (fun m => ⟨s.table, some m, false⟩)
  else some s

/-- Modelled from the spec: `FormValidators.validate_author_name` lives in
formvalidators.py, which is not under src/; per the spec the author of a
record is a non-empty display string, so validation succeeds exactly on
non-empty author names. -/
def validate_author_name (author : Str) : Bool := !author.isEmpty

/-- Embeds `BookManager.add_book` (models.py lines 160-168): validate the author
(`none` models the raised `ValueError`), insert `book.to_dict()` at the end
of the table, mark the cache dirty. -/
def add_book (b : Book) (s : BMState) : Option BMState :=
  if validate_author_name b.author = false then none
  else some ⟨s.table ++ [b.to_dict], s.cache, true⟩

/-- Embeds `BookManager.update_book` (models.py lines 184-192): merge `new_data`
into every document whose `uuid` equals the argument, mark the cache dirty.
The strptime/isoformat normalisation of a string-typed `added` value
(lines 187-189) preserves the instant and is the identity at this model's
level of abstraction (dates are abstract instants). -/
def update_book (uuidq : Str) (new_data : Doc) (s : BMState) : BMState :=
  ⟨s.table.map (fun d =>
     if lookupDoc d ("uuid").data = some (.str uuidq) then mergeDoc d new_data else d),
   s.cache, true⟩

/-- Embeds `BookManager.remove_book` (models.py lines 194-198). -/
def remove_book (uuidq : Str) (s : BMState) : BMState :=
  ⟨s.table.filter (fun d => !(lookupDoc d ("uuid").data == some (.str uuidq))),
   s.cache, true⟩

def cacheValues (m : List (Str × Book)) : List Book := m.map Prod.snd

/-- Embeds `BookManager.get_book` (models.py lines 200-203). -/
def get_book (uuidq : Str) (s : BMState) : Option (Option Book × BMState) :=
  (ensureCache s).map (fun t => ((t.cache.getD []).lookup uuidq, t))

/-- Embeds `BookManager.get_all_books` (models.py lines 205-208). -/
def get_all_books (s : BMState) : Option (List Book × BMState) :=
  (ensureCache s).map (fun t => (cacheValues (t.cache.getD []), t))

/-- Is the first string a leading segment of the second? -/
def leadsWith : Str → Str → Bool
  | [], _ => true
  | _ :: _, [] => false
  | a :: as, b :: bs => a == b && leadsWith as bs

/-- Python substring test `needle in hay`. -/
def containsSub (needle hay : Str) : Bool :=
  hay.tails.any (fun t => leadsWith needle t)

/-- The row predicate of `search_books_by_text`: match when the lowercased
text occurs in the (truthy) title or author, lowercased. -/
def searchPred (text : Str) (b : Book) : Bool :=
  (!b.title.isEmpty && containsSub (pyLower text) (pyLower b.title))
  || (!b.author.isEmpty && containsSub (pyLower text) (pyLower b.author))

/-- Embeds `BookManager.search_books_by_text` (models.py lines 210-222). -/
def search_books_by_text (text : Str) (s : BMState) : Option (List Book × BMState) :=
  if text = [] then get_all_books s
  else
    (ensureCache s).map (fun t =>
      ((cacheValues (t.cache.getD [])).filter (searchPred text), t))

/-- The `BookManager` state right after `__init__`: no cache, dirty. -/
def initialBMState (t : List Doc) : BMState := ⟨t, none, true⟩

/-- The sortable fields the claims range over: the timestamp field and the
string-typed fields.  (`tags`, `other_formats` and `num_series`, whose
Python `str()` rendering the claims do not touch, are outside the model.) -/
inductive SortField
  | added | uuid | author | title | filename | series | description | read
deriving DecidableEq

/-- Renders `str(getattr(x, field) or '')` for the string-typed fields: an absent
(`None`) value renders as the empty string.  (Unused for `added`, which
`sort_books` compares as a timestamp.) -/
def strKey (f : SortField) (b : Book) : Str :=
  match f with
  | .added => []
  | .uuid => b.uuid
  | .author => b.author
  | .title => b.title
  | .filename => b.filename
  | .series => b.series.getD []
  | .description => b.description.getD []
  | .read => b.read.getD []

/-- Lexicographic string order by code point, Python string comparison. -/
def strLe : Str → Str → Bool
  | [], _ => true
  | _ :: _, [] => false
  | a :: as, b :: bs => if a < b then true else if b < a then false else strLe as bs

/-- Insert `x` before the first element `y` with `le x y`; together with
`stableSort` this is the unique stable sort for a total preorder, which is
the observable behaviour of Python `list.sort`. -/
def insertLe (le : Book → Book → Bool) (x : Book) : List Book → List Book
  | [] => [x]
  | y :: ys => if le x y then x :: y :: ys else y :: insertLe le x ys

/-- Stable sort modelling Python `list.sort` (timsort is stable; for a
total preorder any two stable sorts agree pointwise). -/
def stableSort (le : Book → Book → Bool) : List Book → List Book
  | [] => []
  | x :: xs => insertLe le x (stableSort le xs)

/-- The comparator of `books.sort(key=lambda x: x.added, reverse=reverse)`:
`le a b` holds when `a` may stay before `b` (ties keep original order). -/
def addedLe (rev : Bool) (a b : Book) : Bool :=
  if rev then decide (b.added ≤ a.added) else decide (a.added ≤ b.added)

/-- The comparator of `books.sort(key=lambda x: str(getattr(x, field) or ''),
reverse=reverse)`. -/
def strFieldLe (f : SortField) (rev : Bool) (a b : Book) : Bool :=
  if rev then strLe (strKey f b) (strKey f a) else strLe (strKey f a) (strKey f b)

/-- Embeds `BookManager.sort_books` (models.py lines 224-239): read the full
in-memory set, default `reverse` to `True` exactly for `added`, then stably
sort by the timestamp (for `added`) or by the rendered string field. -/
def sort_books (s : BMState) (f : SortField) (reverse : Option Bool) :
    Option (List Book × BMState) :=
  (get_all_books s).map (fun br =>
    if br.1 = [] then ([], br.2)
    else
      let rev := reverse.getD (f == SortField.added)
      match f with
      | .added => (stableSort (addedLe rev) br.1, br.2)
      | g => (stableSort (strFieldLe g rev) br.1, br.2))

/-! ## Concrete fixtures used by witnesses and counterexamples -/

/-- The cache invariant maintained by every `BookManager` operation: a
clean (`dirty = false`) state either has no cache yet or caches exactly
the current full-table scan. -/
def CacheConsistent (s : BMState) : Prop :=
  s.dirty = false → (s.cache = none ∨ s.cache = buildCache s.table)
def exampleFS : FS := ⟨[(("up/novel.epub").data, 7)], [("lib").data]⟩
def exampleEnv : Env := ⟨100, false, false, false, [], [], []⟩
def bookU1 : Book :=
  ⟨("u1").data, ("A").data, ("T").data, 5, [], ("f.epub").data, [], none, none, none, none⟩
def bookU2 : Book :=
  ⟨("u2").data, ("B").data, ("S").data, 5, [], [], [], none, none, none, none⟩
def stateU1 : BMState := ⟨[bookU1.to_dict], none, true⟩
def stateU12 : BMState := ⟨[bookU1.to_dict, bookU2.to_dict], none, true⟩
def exampleEnvDbFailRollbackOk : Env :=
  ⟨100, false, true, false, [], ("disk full").data, []⟩
def exampleFSCollide : FS :=
  ⟨[(("up/novel.epub").data, 7), (("lib/AAVV/Anthology - AA.VV..epub").data, 9)],
   [("lib").data]⟩

/-! ## Lemmas about the string primitives -/

theorem dropWhile_idem (p : Char → Bool) (l : Str) :
    (l.dropWhile p).dropWhile p = l.dropWhile p := by
  induction l with
  | nil => simp
  | cons a as ih =>
    by_cases h : p a
    · simp [List.dropWhile_cons, h, ih]
    · simp [List.dropWhile_cons, h]

theorem stripLeft_idem (l : Str) : stripLeft (stripLeft l) = stripLeft l :=
  dropWhile_idem isPySpace l

theorem stripRight_idem (l : Str) : stripRight (stripRight l) = stripRight l := by
  simp [stripRight, List.reverse_reverse, dropWhile_idem]

theorem dropWhile_eq_drop (p : Char → Bool) (l : Str) :
    ∃ k, k ≤ l.length ∧ l.dropWhile p = l.drop k := by
  induction l with
  | nil => exact ⟨0, by simp⟩
  | cons a as ih =>
    by_cases h : p a
    · obtain ⟨k, hk, he⟩ := ih
      exact ⟨k + 1, by simpa using hk, by simpa [List.dropWhile_cons, h]⟩
    · exact ⟨0, by simp, by simp [List.dropWhile_cons, h]⟩

theorem stripRight_eq_take (l : Str) : ∃ n, stripRight l = l.take n := by
  obtain ⟨k, hk, he⟩ := dropWhile_eq_drop isPySpace l.reverse
  refine ⟨l.length - k, ?_⟩
  have hk2 : k ≤ l.length := by simpa using hk
  have h1 : l.take (l.length - k) = (l.reverse.drop k).reverse := by
    have h2 := @List.take_reverse Char l.reverse (l.length - k)
    rw [List.reverse_reverse, List.length_reverse, Nat.sub_sub_self hk2] at h2
    exact h2
  rw [h1, stripRight, he]

theorem dropWhile_take (p : Char → Bool) (l : Str) (n : Nat)
    (h : l.dropWhile p = l) : (l.take n).dropWhile p = l.take n := by
  rw [List.dropWhile_eq_self_iff] at h ⊢
  intro hl
  have hlen : 0 < l.length := by
    have := List.length_take n l
    have h0 : 0 < min n l.length := by omega
    omega
  have hget : (l.take n).get ⟨0, hl⟩ = l.get ⟨0, hlen⟩ := by
    simp [List.get_eq_getElem, List.getElem_take]
  rw [hget]
  exact h hlen

theorem stripLeft_stripRight (l : Str) (h : stripLeft l = l) :
    stripLeft (stripRight l) = stripRight l := by
  obtain ⟨n, hn⟩ := stripRight_eq_take l
  rw [hn]
  exact dropWhile_take isPySpace l n h

theorem pyStrip_idem (l : Str) : pyStrip (pyStrip l) = pyStrip l := by
  unfold pyStrip
  rw [stripLeft_stripRight (stripLeft l) (stripLeft_idem l), stripRight_idem]

theorem pyStrip_sublist (l : Str) : List.Sublist (pyStrip l) l := by
  have h1 : List.Sublist (stripLeft l) l := List.dropWhile_sublist _
  have h2 : List.Sublist (stripRight (stripLeft l)) (stripLeft l) := by
    have h3 : List.Sublist ((stripLeft l).reverse.dropWhile isPySpace) (stripLeft l).reverse :=
      List.dropWhile_sublist _
    have h4 := h3.reverse
    rwa [List.reverse_reverse] at h4
  exact h2.trans h1

theorem mem_pyStrip (l : Str) (c : Char) (h : c ∈ pyStrip l) : c ∈ l :=
  (pyStrip_sublist l).subset h

theorem toUpper_eq_dot (c : Char) (h : Char.toUpper c = '.') : c = '.' := by
  by_cases hc : 97 ≤ c.toNat ∧ c.toNat ≤ 122
  · exfalso
    have hv : (c.toNat - 32).isValidChar := Or.inl (by omega)
    simp only [Char.toUpper, ge_iff_le] at h
    rw [if_pos ⟨hc.1, hc.2⟩] at h
    have h2 : (Char.ofNat (c.toNat - 32)).toNat = c.toNat - 32 := by
      simp only [Char.ofNat, hv, dif_pos]
      simp [Char.ofNatAux, Char.toNat, UInt32.toNat, BitVec.toNat_ofNatLt]
    rw [h] at h2
    have : ('.').toNat = 46 := by decide
    omega
  · simp only [Char.toUpper, ge_iff_le] at h
    rw [if_neg hc] at h
    exact h

theorem map_toUpper_ne_AAVV (m : Str) (h : ¬ '.' ∈ m) :
    ¬ (m.map Char.toUpper = ("AA.VV.").data) := by
  intro he
  have hd : '.' ∈ m.map Char.toUpper := by rw [he]; decide
  obtain ⟨a, ha, hu⟩ := List.mem_map.mp hd
  exact h (toUpper_eq_dot a hu ▸ ha)

theorem filter_ne_dot_eq_self (m : Str) (h : ¬ '.' ∈ m) :
    m.filter (fun c => c != '.') = m := by
  refine List.filter_eq_self.mpr (fun a ha => ?_)
  simp only [bne_iff_ne, ne_eq, decide_eq_true_eq]
  intro hr
  exact h (hr ▸ ha)

theorem not_dot_mem_filter (m : Str) : ¬ '.' ∈ m.filter (fun c => c != '.') := by
  intro h
  have := (List.mem_filter.mp h).2
  simp at this

/-- Composing `normalize` with itself strips the surrounding whitespace of
its own output (the amended idempotence law). -/
theorem normalize_normalize (l : Str) :
    normalizeAuthorForPath (normalizeAuthorForPath l) = pyStrip (normalizeAuthorForPath l) := by
  by_cases h0 : l = []
  · subst h0; decide
  · unfold normalizeAuthorForPath
    rw [if_neg h0]
    by_cases hAA : (pyStrip l).map Char.toUpper = ("AA.VV.").data
    · rw [if_pos hAA]; decide
    · rw [if_neg hAA]
      set y := (pyStrip l).filter (fun c => c != '.') with hy
      have hdot : ¬ '.' ∈ y := not_dot_mem_filter _
      by_cases hyn : y = []
      · rw [hyn]; decide
      · rw [if_neg hyn]
        have hdot2 : ¬ '.' ∈ pyStrip y := fun hc => hdot (mem_pyStrip y '.' hc)
        rw [if_neg (map_toUpper_ne_AAVV (pyStrip y) hdot2)]
        exact filter_ne_dot_eq_self (pyStrip y) hdot2

/-! ## Lemmas about the store model -/

theorem filter_insertLe (t : Int) (x : Book) (l : List Book) :
    (insertLe (addedLe false) x l).filter (fun b => b.added == t)
      = if x.added == t then x :: l.filter (fun b => b.added == t)
        else l.filter (fun b => b.added == t) := by
  induction l with
  | nil => by_cases h : x.added == t <;> simp [insertLe, h]
  | cons y ys ih =>
    by_cases hle : addedLe false x y = true
    · simp only [insertLe, hle, if_true]
      by_cases hx : (x.added == t) = true <;> simp [List.filter_cons, hx]
    · simp only [insertLe, hle, if_false]
      by_cases hx : (x.added == t) = true
      · have hxy : (y.added == t) = false := by
          have hlt : ¬ (x.added ≤ y.added) := by simpa [addedLe] using hle
          have hxt : x.added = t := by simpa using hx
          simp only [beq_eq_false_iff_ne, ne_eq]
          omega
        simp [List.filter_cons, hxy, ih, hx]
      · simp [List.filter_cons, ih, hx]

theorem filter_stableSort_added (t : Int) (l : List Book) :
    (stableSort (addedLe false) l).filter (fun b => b.added == t)
      = l.filter (fun b => b.added == t) := by
  induction l with
  | nil => rfl
  | cons x xs ih =>
    by_cases hx : (x.added == t) = true <;>
      simp [stableSort, filter_insertLe, hx, ih, List.filter_cons]

theorem lookup_append_none {α β : Type} [BEq α] (l₁ l₂ : List (α × β)) (k : α)
    (h : l₁.lookup k = none) : (l₁ ++ l₂).lookup k = l₂.lookup k := by
  induction l₁ with
  | nil => rfl
  | cons a rest ih =>
    obtain ⟨a1, a2⟩ := a
    rw [List.cons_append, List.lookup_cons]
    cases hk : (k == a1) with
    | true => rw [List.lookup_cons, hk] at h; simp at h
    | false => rw [List.lookup_cons, hk] at h; exact ih h

theorem lookup_append_some {α β : Type} [BEq α] (l₁ l₂ : List (α × β)) (k : α) (v : β)
    (h : l₁.lookup k = some v) : (l₁ ++ l₂).lookup k = some v := by
  induction l₁ with
  | nil => simp at h
  | cons a rest ih =>
    obtain ⟨a1, a2⟩ := a
    rw [List.cons_append, List.lookup_cons]
    cases hk : (k == a1) with
    | true => rw [List.lookup_cons, hk] at h; exact h
    | false => rw [List.lookup_cons, hk] at h; exact ih h

theorem lookup_filter_none (nd : Doc) (g : Str × Value → Bool) (k : Str)
    (h : nd.lookup k = none) : (nd.filter g).lookup k = none := by
  induction nd with
  | nil => rfl
  | cons a rest ih =>
    obtain ⟨a1, a2⟩ := a
    rw [List.filter_cons]
    cases hk : (k == a1) with
    | true => rw [List.lookup_cons, hk] at h; simp at h
    | false =>
      rw [List.lookup_cons, hk] at h
      by_cases hg : g (a1, a2) = true
      · rw [if_pos hg, List.lookup_cons, hk]
        exact ih h
      · rw [if_neg hg]; exact ih h

theorem lookup_map_merge (d nd : Doc) (k : Str) (h : nd.lookup k = none) :
    (d.map (fun kv =>
      match nd.lookup kv.1 with
      | some v => (kv.1, v)
      | none => kv)).lookup k = d.lookup k := by
  induction d with
  | nil => rfl
  | cons a rest ih =>
    obtain ⟨a1, a2⟩ := a
    simp only [List.map_cons]
    cases hnd : nd.lookup a1 with
    | some v =>
      rw [List.lookup_cons, List.lookup_cons]
      cases hk : (k == a1) with
      | true =>
        have hka : k = a1 := eq_of_beq hk
        rw [hka, hnd] at h
        simp at h
      | false => exact ih
    | none =>
      rw [List.lookup_cons, List.lookup_cons]
      cases hk : (k == a1) with
      | true => rfl
      | false => exact ih

/-- Merging an update dictionary that does not mention key `k` leaves the
value at `k` unchanged. -/
theorem lookup_mergeDoc (d nd : Doc) (k : Str) (h : nd.lookup k = none) :
    (mergeDoc d nd).lookup k = d.lookup k := by
  unfold mergeDoc
  cases hd : d.lookup k with
  | some v =>
    have h1 : (d.map (fun kv =>
        match nd.lookup kv.1 with
        | some v => (kv.1, v)
        | none => kv)).lookup k = some v := by rw [lookup_map_merge d nd k h, hd]
    rw [lookup_append_some _ _ _ _ h1]
  | none =>
    have h1 : (d.map (fun kv =>
        match nd.lookup kv.1 with
        | some v => (kv.1, v)
        | none => kv)).lookup k = none := by rw [lookup_map_merge d nd k h, hd]
    rw [lookup_append_none _ _ _ h1, lookup_filter_none _ _ _ h]

theorem lookup_erase_key (l : List (Str × Nat)) (k : Str) :
    (l.filter (fun kv => !(kv.1 == k))).lookup k = none := by
  induction l with
  | nil => rfl
  | cons a rest ih =>
    obtain ⟨a1, a2⟩ := a
    rw [List.filter_cons]
    by_cases h : (a1 == k) = true
    · simp only [h, Bool.not_true, Bool.false_eq_true, if_false]
      exact ih
    · have h1 : (!(a1 == k)) = true := by simp [h]
      rw [if_pos h1, List.lookup_cons]
      have h2 : (k == a1) = false := by
        rw [beq_eq_false_iff_ne]
        intro he
        rw [Bool.not_eq_true, beq_eq_false_iff_ne] at h
        exact h he.symm
      rw [h2]
      exact ih

theorem FS.mkdirp_files (fs : FS) (d : Str) : (fs.mkdirp d).files = fs.files := rfl

theorem FS.move_isFile_dst (fs : FS) (src dst : Str) (h : fs.isFile src = true) :
    (fs.move src dst).isFile dst = true := by
  unfold FS.isFile at h ⊢
  cases hl : fs.files.lookup src with
  | none => rw [hl] at h; simp at h
  | some c =>
    unfold FS.move
    rw [hl]
    simp [List.lookup_cons]

theorem FS.move_files_of_lookup (fs : FS) (src dst : Str) (c : Nat)
    (h : fs.files.lookup src = some c) :
    (fs.move src dst).files = (dst, c) :: fs.files.filter (fun kv => !(kv.1 == src)) := by
  unfold FS.move
  rw [h]

/-- Moving a file out and back restores its content and leaves no file at
the intermediate location. -/
theorem FS.move_roundtrip (fs : FS) (src tgt : Str)
    (hsrc : fs.isFile src = true) (hne : ¬ (src = tgt)) :
    ((fs.move src tgt).move tgt src).files.lookup src = fs.files.lookup src
    ∧ ((fs.move src tgt).move tgt src).isFile tgt = false := by
  unfold FS.isFile at hsrc
  cases hl : fs.files.lookup src with
  | none => rw [hl] at hsrc; simp at hsrc
  | some c =>
    have h1 := FS.move_files_of_lookup fs src tgt c hl
    have h2 : (fs.move src tgt).files.lookup tgt = some c := by
      rw [h1, List.lookup_cons]
      have hb : (tgt == tgt) = true := beq_self_eq_true tgt
      rw [hb]
    have h3 := FS.move_files_of_lookup (fs.move src tgt) tgt src c h2
    constructor
    · simp [h3, List.lookup_cons, hl]
    · have h4 : (tgt == src) = false := by
        rw [beq_eq_false_iff_ne]
        exact fun he => hne he.symm
      simp [FS.isFile, h3, List.lookup_cons, h4, lookup_erase_key]

/-! ## Lemmas about the cache discipline -/


theorem ensureCache_dirty (s : BMState) (h : s.dirty = true) :
    ensureCache s = (buildCache s.table).map (fun m => ⟨s.table, some m, false⟩) := by
  unfold ensureCache
  rw [if_pos (Or.inl h)]

theorem ensureCache_fresh (s : BMState) (m : List (Str × Book))
    (hc : CacheConsistent s) (hb : buildCache s.table = some m) :
    ensureCache s = some ⟨s.table, some m, false⟩ := by
  by_cases hd : s.dirty = true
  · rw [ensureCache_dirty s hd, hb]
    rfl
  · have hd' : s.dirty = false := by simpa using hd
    rcases hc hd' with hn | he
    · unfold ensureCache
      rw [if_pos (Or.inr hn), hb]
      rfl
    · have hsome : s.cache = some m := by rw [he, hb]
      unfold ensureCache
      rw [if_neg ?_]
      · obtain ⟨t, c, d⟩ := s
        simp only at hsome hd'
        rw [hsome, hd']
      · intro hor
        rcases hor with h1 | h2
        · exact hd h1
        · rw [h2] at hsome; exact Option.noConfusion hsome

theorem foldl_dictInsert_values (bs : List Book) (m0 : List (Str × Book))
    (hd : (bs.map Book.uuid).Nodup)
    (hm : ∀ b ∈ bs, m0.lookup b.uuid = none) :
    cacheValues (bs.foldl (fun m b => dictInsert m b.uuid b) m0)
      = cacheValues m0 ++ bs := by
  induction bs generalizing m0 with
  | nil => simp
  | cons b rest ih =>
    have hb : m0.lookup b.uuid = none := hm b (by simp)
    rw [List.foldl_cons]
    have hins : dictInsert m0 b.uuid b = m0 ++ [(b.uuid, b)] := by
      unfold dictInsert
      rw [hb]
      rfl
    rw [hins]
    have hmap : (b.uuid :: rest.map Book.uuid).Nodup := by simpa using hd
    have hd' : (rest.map Book.uuid).Nodup := (List.nodup_cons.mp hmap).2
    have hb_not : ¬ b.uuid ∈ rest.map Book.uuid := (List.nodup_cons.mp hmap).1
    have hm' : ∀ c ∈ rest, (m0 ++ [(b.uuid, b)]).lookup c.uuid = none := by
      intro c hc
      have h1 : m0.lookup c.uuid = none := hm c (List.mem_cons_of_mem _ hc)
      rw [lookup_append_none _ _ _ h1, List.lookup_cons]
      have hne : (c.uuid == b.uuid) = false := by
        rw [beq_eq_false_iff_ne]
        intro he
        exact hb_not (he ▸ List.mem_map_of_mem Book.uuid hc)
      rw [hne]
      rfl
    rw [ih (m0 ++ [(b.uuid, b)]) hd' hm']
    simp [cacheValues]

/-- C10: every result of `process_add_book` carries the keys `success`,
`message`, `new_file_path` (by the shape of `AddBookResult`), and `success`
is `true` exactly when `new_file_path` is a non-null path. -/
theorem C10_result_shape (src author title tags_str libBase : Str)
    (env : Env) (fs0 : FS) (db0 : List Entry) :
    ((process_add_book src author title tags_str libBase env fs0 db0).res.success = true
      ↔ ¬ ((process_add_book src author title tags_str libBase env fs0 db0).res.new_file_path
            = none)) := by
  unfold process_add_book
  split_ifs <;> simp [failOut]

/-- Characterization of a successful `process_add_book` run: the exact
output record and the fact that the source was a file. -/
theorem process_add_book_success_eq (src author title tags_str libBase : Str)
    (env : Env) (fs0 : FS) (db0 : List Entry)
    (h : (process_add_book src author title tags_str libBase env fs0 db0).res.success = true) :
    process_add_book src author title tags_str libBase env fs0 db0
      = ⟨⟨true, addSuccessMsg author title (target_path libBase author title src),
          some (target_path libBase author title src)⟩,
         (fs0.mkdirp (target_author_dir libBase author)).move src
           (target_path libBase author title src),
         db0 ++ [newEntry author title tags_str src env.now],
         [FsEvent.movedFile src (target_path libBase author title src),
          FsEvent.insertedRecord (newEntry author title tags_str src env.now)]⟩
    ∧ fs0.isFile src = true
    ∧ fs0.pathExists (target_path libBase author title src) = false := by
  unfold process_add_book at h ⊢
  split_ifs at h ⊢ with h1 h2 h3 h4 h5 h6 h7
  all_goals simp [failOut] at h
  refine ⟨rfl, ?_, ?_⟩
  · cases hb : fs0.isFile src with
    | false => exact absurd hb h2
    | true => rfl
  · cases hb : fs0.pathExists (target_path libBase author title src) with
    | false => rfl
    | true => exact absurd hb h4

/-- C1: in every successful run the file move is strictly before the
record insert (the trace is exactly move-then-insert), and at commit time
the file exists at `<library_root>/<normalize(author)>/<filename>` where
`filename` is the committed record's stored filename. -/
theorem C1_move_before_insert (src author title tags_str libBase : Str)
    (env : Env) (fs0 : FS) (db0 : List Entry)
    (h : (process_add_book src author title tags_str libBase env fs0 db0).res.success = true) :
    (process_add_book src author title tags_str libBase env fs0 db0).trace
      = [FsEvent.movedFile src (target_path libBase author title src),
         FsEvent.insertedRecord (newEntry author title tags_str src env.now)]
    ∧ (process_add_book src author title tags_str libBase env fs0 db0).db
      = db0 ++ [newEntry author title tags_str src env.now]
    ∧ (process_add_book src author title tags_str libBase env fs0 db0).fs.isFile
        (pathJoin (pathJoin libBase (normalizeAuthorForPath author))
          (newEntry author title tags_str src env.now).filename) = true := by
  obtain ⟨he, hsrc, -⟩ :=
    process_add_book_success_eq src author title tags_str libBase env fs0 db0 h
  rw [he]
  exact ⟨rfl, rfl, FS.move_isFile_dst _ src _ hsrc⟩

/-- C3: collisions and validation failures are terminal and mutate nothing
(filesystem and store unchanged, empty side-effect trace), and a second
call with the same author/title/extension on the state left by a first
successful call fails and leaves that state untouched. -/
theorem C3_failures_no_mutation :
    (∀ src author title tags_str libBase env fs0 db0,
      (src = [] ∨ author = [] ∨ title = [] ∨ fs0.isFile src = false
        ∨ ALLOWED_EXTENSIONS.contains (pyLower (pySuffix src)) = false) →
      (process_add_book src author title tags_str libBase env fs0 db0).res.success = false
      ∧ (process_add_book src author title tags_str libBase env fs0 db0).fs = fs0
      ∧ (process_add_book src author title tags_str libBase env fs0 db0).db = db0
      ∧ (process_add_book src author title tags_str libBase env fs0 db0).trace = [])
    ∧ (∀ src author title tags_str libBase env fs0 db0,
      fs0.pathExists (target_path libBase author title src) = true →
      (process_add_book src author title tags_str libBase env fs0 db0).res.success = false
      ∧ (process_add_book src author title tags_str libBase env fs0 db0).fs = fs0
      ∧ (process_add_book src author title tags_str libBase env fs0 db0).db = db0
      ∧ (process_add_book src author title tags_str libBase env fs0 db0).trace = [])
    ∧ (∀ src1 src2 author title tags1 tags2 libBase env1 env2 fs0 db0,
      (process_add_book src1 author title tags1 libBase env1 fs0 db0).res.success = true →
      pySuffix src2 = pySuffix src1 →
      (process_add_book src2 author title tags2 libBase env2
          (process_add_book src1 author title tags1 libBase env1 fs0 db0).fs
          (process_add_book src1 author title tags1 libBase env1 fs0 db0).db).res.success = false
      ∧ (process_add_book src2 author title tags2 libBase env2
          (process_add_book src1 author title tags1 libBase env1 fs0 db0).fs
          (process_add_book src1 author title tags1 libBase env1 fs0 db0).db).fs
        = (process_add_book src1 author title tags1 libBase env1 fs0 db0).fs
      ∧ (process_add_book src2 author title tags2 libBase env2
          (process_add_book src1 author title tags1 libBase env1 fs0 db0).fs
          (process_add_book src1 author title tags1 libBase env1 fs0 db0).db).db
        = (process_add_book src1 author title tags1 libBase env1 fs0 db0).db) := by
  refine ⟨?_, ?_, ?_⟩
  · intro src author title tags_str libBase env fs0 db0 hva
    unfold process_add_book
    split_ifs <;> simp_all [failOut]
  · intro src author title tags_str libBase env fs0 db0 hcol
    unfold process_add_book
    split_ifs <;> simp_all [failOut]
  · intro src1 src2 author title tags1 tags2 libBase env1 env2 fs0 db0 hsucc hsfx
    obtain ⟨he1, hsrc1, -⟩ :=
      process_add_book_success_eq src1 author title tags1 libBase env1 fs0 db0 hsucc
    have htgteq : target_path libBase author title src2 = target_path libBase author title src1 := by
      simp [target_path, new_filename, hsfx]
    have hex : (process_add_book src1 author title tags1 libBase env1 fs0 db0).fs.pathExists
        (target_path libBase author title src2) = true := by
      rw [htgteq, he1]
      have hf := FS.move_isFile_dst (fs0.mkdirp (target_author_dir libBase author)) src1
        (target_path libBase author title src1) hsrc1
      simp [FS.pathExists, hf]
    set fs1 := (process_add_book src1 author title tags1 libBase env1 fs0 db0).fs with hfs1
    set db1 := (process_add_book src1 author title tags1 libBase env1 fs0 db0).db with hdb1
    unfold process_add_book
    split_ifs
    all_goals exact ⟨rfl, rfl, rfl⟩

theorem dbCriticalMsg_ne_dbRevertedMsg (e rb e2 : Str) :
    ¬ (dbCriticalMsg e rb = dbRevertedMsg e2) := by
  intro h
  have hc : (dbCriticalMsg e rb).head? = some 'C' := rfl
  rw [h] at hc
  have hr : (dbRevertedMsg e2).head? = some 'E' := rfl
  rw [hr] at hc
  exact absurd hc (by decide)

/-- C2: if the store insert fails after a successful file placement, the
run fails with no record committed; a successful reverse move restores the
source file and removes the placed file, reporting the single combined
message; a failed reverse move leaves the placed file and reports the
distinct CRITICAL message naming both exception texts. -/
theorem C2_rollback_on_commit_failure (src author title tags_str libBase : Str)
    (env : Env) (fs0 : FS) (db0 : List Entry)
    (hv : ¬ (src = [] ∨ author = [] ∨ title = []))
    (hf : fs0.isFile src = true)
    (hext : ALLOWED_EXTENSIONS.contains (pyLower (pySuffix src)) = true)
    (hx : fs0.pathExists (target_path libBase author title src) = false)
    (hm : env.moveFails = false)
    (hd : env.dbInsertFails = true) :
    (process_add_book src author title tags_str libBase env fs0 db0).res.success = false
    ∧ (process_add_book src author title tags_str libBase env fs0 db0).db = db0
    ∧ (env.rollbackMoveFails = false →
        (process_add_book src author title tags_str libBase env fs0 db0).res.message
          = dbRevertedMsg env.dbErrText
        ∧ (process_add_book src author title tags_str libBase env fs0 db0).fs.files.lookup src
          = fs0.files.lookup src
        ∧ (process_add_book src author title tags_str libBase env fs0 db0).fs.isFile
            (target_path libBase author title src) = false)
    ∧ (env.rollbackMoveFails = true →
        (process_add_book src author title tags_str libBase env fs0 db0).res.message
          = dbCriticalMsg env.dbErrText env.rollbackErrText
        ∧ leadsWith ("CRITICAL").data
            (process_add_book src author title tags_str libBase env fs0 db0).res.message = true
        ∧ (process_add_book src author title tags_str libBase env fs0 db0).fs.isFile
            (target_path libBase author title src) = true)
    ∧ ¬ (dbCriticalMsg env.dbErrText env.rollbackErrText = dbRevertedMsg env.dbErrText) := by
  have hf' : ¬ (fs0.isFile src = false) := fun hcon => by
    rw [hf] at hcon; exact Bool.noConfusion hcon
  have hext' : ¬ (ALLOWED_EXTENSIONS.contains (pyLower (pySuffix src)) = false) := fun hcon => by
    rw [hext] at hcon; exact Bool.noConfusion hcon
  have hx' : ¬ (fs0.pathExists (target_path libBase author title src) = true) := fun hcon => by
    rw [hx] at hcon; exact Bool.noConfusion hcon
  have hm' : ¬ (env.moveFails = true) := fun hcon => by
    rw [hm] at hcon; exact Bool.noConfusion hcon
  have hne : ¬ (src = target_path libBase author title src) := by
    intro heq
    rw [← heq] at hx
    simp [FS.pathExists, hf] at hx
  unfold process_add_book
  split_ifs with hr
  · refine ⟨rfl, rfl, ?_, ?_, dbCriticalMsg_ne_dbRevertedMsg _ _ _⟩
    · intro hc
      rw [hr] at hc
      simp at hc
    · intro _
      exact ⟨rfl, rfl, FS.move_isFile_dst _ src _ hf⟩
  · refine ⟨rfl, rfl, ?_, ?_, dbCriticalMsg_ne_dbRevertedMsg _ _ _⟩
    · intro _
      have hrt := FS.move_roundtrip (fs0.mkdirp (target_author_dir libBase author)) src
        (target_path libBase author title src) hf hne
      exact ⟨rfl, hrt.1, hrt.2⟩
    · intro hc
      exact absurd hc hr


/-- C4 counterexample: the committed record for the spec's example tag
input keeps the duplicate "fiction" (no dedup in the code). -/
theorem C4_counterexample :
    (process_add_book ("up/novel.epub").data ("A").data ("T").data
        (" fiction, , Sci-Fi ,fiction").data ("lib").data exampleEnv exampleFS []).db
      = [⟨("A").data, ("T").data, ("T - A.epub").data,
          [("fiction").data, ("Sci-Fi").data, ("fiction").data], 100⟩]
    ∧ ¬ ([("fiction").data, ("Sci-Fi").data, ("fiction").data] : List Str).Nodup := by
  constructor
  · decide
  · decide

/-- C4 (amended): stored tags are trimmed and never empty, and on success
the committed record stores exactly `pyTags tags_str`; duplicates are kept
(the example input stores "fiction" twice). -/
theorem C4_tags_trimmed_nonempty (tags_str : Str) :
    (∀ t ∈ pyTags tags_str, ¬ (t = []) ∧ pyStrip t = t)
    ∧ pyTags (" fiction, , Sci-Fi ,fiction").data
      = [("fiction").data, ("Sci-Fi").data, ("fiction").data]
    ∧ (∀ src author title libBase env fs0 db0,
        (process_add_book src author title tags_str libBase env fs0 db0).res.success = true →
        (process_add_book src author title tags_str libBase env fs0 db0).db
          = db0 ++ [newEntry author title tags_str src env.now]
        ∧ (newEntry author title tags_str src env.now).tags = pyTags tags_str) := by
  refine ⟨?_, by decide, ?_⟩
  · intro t ht
    obtain ⟨hmem, hne⟩ := List.mem_filter.mp ht
    obtain ⟨r, _, hrt⟩ := List.mem_map.mp hmem
    constructor
    · intro hnil
      rw [hnil] at hne
      simp at hne
    · rw [← hrt]
      exact pyStrip_idem r
  · intro src author title libBase env fs0 db0 h
    obtain ⟨he, -, -⟩ :=
      process_add_book_success_eq src author title tags_str libBase env fs0 db0 h
    rw [he]
    exact ⟨rfl, rfl⟩

/-- C5 counterexample: the normalizer is not idempotent; removing the dot
of "a ." exposes a trailing space that a second pass strips. -/
theorem C5_counterexample :
    ¬ (normalize_author_for_path (normalize_author_for_path "a .")
        = normalize_author_for_path "a .")
    ∧ normalize_author_for_path "a ." = "a "
    ∧ normalize_author_for_path (normalize_author_for_path "a .") = "a" := by
  refine ⟨by decide, by decide, by decide⟩

/-- C5 (amended): a second application of the normalizer exactly strips
the surrounding whitespace of the first application's output; idempotence
holds precisely when that output is already stripped. -/
theorem C5_normalize_squared_strips (s : String) :
    normalize_author_for_path (normalize_author_for_path s)
      = ⟨pyStrip (normalize_author_for_path s).data⟩ :=
  congrArg String.mk (normalize_normalize s.data)

/-- C6: the normalizer's contract (empty input, AA.VV. special case after
trimming and uppercasing, dot removal on the trimmed input otherwise) and
the spec's concrete scenarios, including the full workflow run for
author "AA.VV.", title "Anthology", file novel.epub. -/
theorem C6_normalizer_examples :
    normalize_author_for_path "" = ""
    ∧ (∀ x : String, (pyStrip x.data).map Char.toUpper = ("AA.VV.").data →
        normalize_author_for_path x = "AAVV")
    ∧ (∀ x : String, ¬ ((pyStrip x.data).map Char.toUpper = ("AA.VV.").data) →
        normalize_author_for_path x = ⟨(pyStrip x.data).filter (fun c => c != '.')⟩)
    ∧ normalize_author_for_path "J.R.R. Tolkien" = "JRR Tolkien"
    ∧ normalize_author_for_path " AA.VV. " = "AAVV"
    ∧ target_author_dir ("lib").data ("AA.VV.").data = ("lib/AAVV").data
    ∧ (process_add_book ("up/novel.epub").data ("AA.VV.").data ("Anthology").data []
        ("lib").data exampleEnv exampleFS []).res.success = true
    ∧ (process_add_book ("up/novel.epub").data ("AA.VV.").data ("Anthology").data []
        ("lib").data exampleEnv exampleFS []).db
      = [⟨("AA.VV.").data, ("Anthology").data, ("Anthology - AA.VV..epub").data, [], 100⟩]
    ∧ (process_add_book ("up/novel.epub").data ("AA.VV.").data ("Anthology").data []
        ("lib").data exampleEnv exampleFS []).fs.isFile
        (("lib/AAVV/Anthology - AA.VV..epub").data) = true := by
  refine ⟨rfl, ?_, ?_, by decide, by decide, by decide, by decide, by decide, by decide⟩
  · intro x h
    unfold normalize_author_for_path normalizeAuthorForPath
    by_cases hx : x.data = []
    · rw [hx] at h
      exact absurd h (by decide)
    · rw [if_neg hx, if_pos h]
  · intro x h
    unfold normalize_author_for_path normalizeAuthorForPath
    by_cases hx : x.data = []
    · rw [if_pos hx, hx]
      rfl
    · rw [if_neg hx, if_neg h]

/-- C7 counterexample: `update_book` merges a supplied `uuid` field into
the matched record, changing the stored identifier from "u1" to "u2". -/
theorem C7_counterexample :
    (update_book ("u1").data [(("uuid").data, Value.str ("u2").data)] stateU1).table.map
        (fun d => lookupDoc d ("uuid").data)
      = [some (Value.str ("u2").data)]
    ∧ ¬ ((update_book ("u1").data [(("uuid").data, Value.str ("u2").data)] stateU1).table.map
          (fun d => lookupDoc d ("uuid").data)
        = stateU1.table.map (fun d => lookupDoc d ("uuid").data)) := by
  refine ⟨by decide, by decide⟩

/-- C7 (amended): `update_book` merges the supplied fields into every
record matched by uuid, and preserves every stored uuid exactly when the
update dictionary does not itself supply a `uuid` key; it does not
reject a supplied `uuid`. -/
theorem C7_update_uuid_preserved_iff_not_supplied (s : BMState) (uuidq : Str) (nd : Doc)
    (h : nd.lookup ("uuid").data = none) :
    (update_book uuidq nd s).table.map (fun d => lookupDoc d ("uuid").data)
      = s.table.map (fun d => lookupDoc d ("uuid").data) := by
  unfold update_book
  rw [List.map_map]
  apply List.map_congr_left
  intro d _
  simp only [Function.comp]
  by_cases hc : lookupDoc d ("uuid").data = some (Value.str uuidq)
  · rw [if_pos hc]
    exact lookup_mergeDoc d nd _ h
  · rw [if_neg hc]

/-- C8: every mutation (insert/update/remove) marks the cache dirty and
preserves the cache invariant; every read (get, list-all, search) on a
consistent state rebuilds the cache from a full table scan when it is
stale and returns exactly the current table's contents. -/
theorem C8_cache_discipline :
    (∀ b s s', add_book b s = some s' → s'.dirty = true ∧ s'.table = s.table ++ [b.to_dict])
    ∧ (∀ u nd s, (update_book u nd s).dirty = true)
    ∧ (∀ u s, (remove_book u s).dirty = true)
    ∧ (∀ t, CacheConsistent (initialBMState t))
    ∧ (∀ s, s.dirty = true →
        ensureCache s = (buildCache s.table).map (fun m => ⟨s.table, some m, false⟩))
    ∧ (∀ s m, CacheConsistent s → buildCache s.table = some m →
        get_all_books s = some (cacheValues m, ⟨s.table, some m, false⟩))
    ∧ (∀ s m u, CacheConsistent s → buildCache s.table = some m →
        get_book u s = some (m.lookup u, ⟨s.table, some m, false⟩))
    ∧ (∀ s m text, CacheConsistent s → buildCache s.table = some m → ¬ (text = []) →
        search_books_by_text text s
          = some ((cacheValues m).filter (searchPred text), ⟨s.table, some m, false⟩))
    ∧ (∀ b s s', add_book b s = some s' → CacheConsistent s')
    ∧ (∀ u nd s, CacheConsistent (update_book u nd s))
    ∧ (∀ u s, CacheConsistent (remove_book u s))
    ∧ (∀ s s', CacheConsistent s → ensureCache s = some s' → CacheConsistent s') := by
  have hadd : ∀ b s s', add_book b s = some s' →
      s'.dirty = true ∧ s'.table = s.table ++ [b.to_dict] := by
    intro b s s' h
    unfold add_book at h
    split_ifs at h
    obtain rfl := Option.some.inj h
    exact ⟨rfl, rfl⟩
  refine ⟨hadd, fun _ _ _ => rfl, fun _ _ => rfl, ?_, ensureCache_dirty, ?_, ?_, ?_, ?_, ?_, ?_, ?_⟩
  · intro t hd
    simp [initialBMState] at hd
  · intro s m hc hb
    unfold get_all_books
    rw [ensureCache_fresh s m hc hb]
    rfl
  · intro s m u hc hb
    unfold get_book
    rw [ensureCache_fresh s m hc hb]
    rfl
  · intro s m text hc hb ht
    unfold search_books_by_text
    rw [if_neg ht, ensureCache_fresh s m hc hb]
    rfl
  · intro b s s' h hd
    obtain ⟨h1, -⟩ := hadd b s s' h
    rw [h1] at hd
    exact absurd hd (by simp)
  · intro u nd s hd
    simp [update_book] at hd
  · intro u s hd
    simp [remove_book] at hd
  · intro s s' hc h
    unfold ensureCache at h
    split_ifs at h with hcond
    · cases hb : buildCache s.table with
      | none => rw [hb] at h; simp at h
      | some m =>
        rw [hb] at h
        have h2 := Option.some.inj h
        rw [← h2]
        intro _
        right
        exact hb.symm
    · have h2 := Option.some.inj h
      rw [← h2]
      exact hc

/-- C9: `sort_books` on `added` ascending is the stable sort of the full
in-memory set (records with equal timestamps keep their table order, which
is store-insertion order when the cache is a fresh scan of distinct-uuid
records), and the string-field sort key renders an absent field as the
empty string. -/
theorem C9_sort_added_stable :
    (∀ s books s', get_all_books s = some (books, s') →
        sort_books s SortField.added (some false)
          = some (stableSort (addedLe false) books, s'))
    ∧ (∀ (books : List Book) (t : Int),
        (stableSort (addedLe false) books).filter (fun b => b.added == t)
          = books.filter (fun b => b.added == t))
    ∧ (∀ (t : List Doc) (bs : List Book), t.mapM Book.from_dict = some bs →
        (bs.map Book.uuid).Nodup →
        buildCache t = some (bs.foldl (fun m b => dictInsert m b.uuid b) [])
        ∧ cacheValues (bs.foldl (fun m b => dictInsert m b.uuid b) []) = bs)
    ∧ (∀ b : Book, (b.series = none → strKey SortField.series b = [])
        ∧ (b.description = none → strKey SortField.description b = [])
        ∧ (b.read = none → strKey SortField.read b = [])) := by
  refine ⟨?_, fun books t => filter_stableSort_added t books, ?_, ?_⟩
  · intro s books s' h
    unfold sort_books
    rw [h]
    by_cases hb : books = []
    · subst hb
      rfl
    · show some (if books = [] then (([] : List Book), s')
          else (stableSort (addedLe ((some false).getD (SortField.added == SortField.added)))
            books, s')) = _
      rw [if_neg hb]
      rfl
  · intro t bs hm hd
    constructor
    · unfold buildCache
      rw [hm]
      rfl
    · have h := foldl_dictInsert_values bs [] hd (fun b _ => rfl)
      simpa using h
  · intro b
    refine ⟨?_, ?_, ?_⟩ <;> intro h <;> simp [strKey, h]


theorem C1_witness :
    (process_add_book ("up/novel.epub").data ("AA.VV.").data ("Anthology").data ("x,y").data
        ("lib").data exampleEnv exampleFS []).trace
      = [FsEvent.movedFile ("up/novel.epub").data
           (target_path ("lib").data ("AA.VV.").data ("Anthology").data ("up/novel.epub").data),
         FsEvent.insertedRecord
           (newEntry ("AA.VV.").data ("Anthology").data ("x,y").data ("up/novel.epub").data
             exampleEnv.now)]
    ∧ (process_add_book ("up/novel.epub").data ("AA.VV.").data ("Anthology").data ("x,y").data
        ("lib").data exampleEnv exampleFS []).db
      = [] ++ [newEntry ("AA.VV.").data ("Anthology").data ("x,y").data ("up/novel.epub").data
          exampleEnv.now]
    ∧ (process_add_book ("up/novel.epub").data ("AA.VV.").data ("Anthology").data ("x,y").data
        ("lib").data exampleEnv exampleFS []).fs.isFile
        (pathJoin (pathJoin ("lib").data (normalizeAuthorForPath ("AA.VV.").data))
          (newEntry ("AA.VV.").data ("Anthology").data ("x,y").data ("up/novel.epub").data
            exampleEnv.now).filename) = true :=
  C1_move_before_insert _ _ _ _ _ _ _ _ (by decide)

theorem C2_witness :
    (process_add_book ("up/novel.epub").data ("AA.VV.").data ("Anthology").data ("x,y").data
        ("lib").data exampleEnvDbFailRollbackOk exampleFS []).res.success = false
    ∧ (process_add_book ("up/novel.epub").data ("AA.VV.").data ("Anthology").data ("x,y").data
        ("lib").data exampleEnvDbFailRollbackOk exampleFS []).db = []
    ∧ (exampleEnvDbFailRollbackOk.rollbackMoveFails = false →
        (process_add_book ("up/novel.epub").data ("AA.VV.").data ("Anthology").data ("x,y").data
            ("lib").data exampleEnvDbFailRollbackOk exampleFS []).res.message
          = dbRevertedMsg exampleEnvDbFailRollbackOk.dbErrText
        ∧ (process_add_book ("up/novel.epub").data ("AA.VV.").data ("Anthology").data ("x,y").data
            ("lib").data exampleEnvDbFailRollbackOk exampleFS []).fs.files.lookup
            ("up/novel.epub").data
          = exampleFS.files.lookup ("up/novel.epub").data
        ∧ (process_add_book ("up/novel.epub").data ("AA.VV.").data ("Anthology").data ("x,y").data
            ("lib").data exampleEnvDbFailRollbackOk exampleFS []).fs.isFile
            (target_path ("lib").data ("AA.VV.").data ("Anthology").data ("up/novel.epub").data)
          = false)
    ∧ (exampleEnvDbFailRollbackOk.rollbackMoveFails = true →
        (process_add_book ("up/novel.epub").data ("AA.VV.").data ("Anthology").data ("x,y").data
            ("lib").data exampleEnvDbFailRollbackOk exampleFS []).res.message
          = dbCriticalMsg exampleEnvDbFailRollbackOk.dbErrText
              exampleEnvDbFailRollbackOk.rollbackErrText
        ∧ leadsWith ("CRITICAL").data
            (process_add_book ("up/novel.epub").data ("AA.VV.").data ("Anthology").data
              ("x,y").data ("lib").data exampleEnvDbFailRollbackOk exampleFS []).res.message = true
        ∧ (process_add_book ("up/novel.epub").data ("AA.VV.").data ("Anthology").data ("x,y").data
            ("lib").data exampleEnvDbFailRollbackOk exampleFS []).fs.isFile
            (target_path ("lib").data ("AA.VV.").data ("Anthology").data ("up/novel.epub").data)
          = true)
    ∧ ¬ (dbCriticalMsg exampleEnvDbFailRollbackOk.dbErrText
          exampleEnvDbFailRollbackOk.rollbackErrText
        = dbRevertedMsg exampleEnvDbFailRollbackOk.dbErrText) :=
  C2_rollback_on_commit_failure _ _ _ _ _ _ _ _ (by decide) (by decide) (by decide) (by decide)
    (by decide) (by decide)

theorem C3_witness :
    (process_add_book ("up/novel.epub").data ("AA.VV.").data ("Anthology").data ("x,y").data
        ("lib").data exampleEnv exampleFSCollide []).res.success = false
    ∧ (process_add_book ("up/novel.epub").data ("AA.VV.").data ("Anthology").data ("x,y").data
        ("lib").data exampleEnv exampleFSCollide []).fs = exampleFSCollide
    ∧ (process_add_book ("up/novel.epub").data ("AA.VV.").data ("Anthology").data ("x,y").data
        ("lib").data exampleEnv exampleFSCollide []).db = []
    ∧ (process_add_book ("up/novel.epub").data ("AA.VV.").data ("Anthology").data ("x,y").data
        ("lib").data exampleEnv exampleFSCollide []).trace = [] :=
  C3_failures_no_mutation.2.1 ("up/novel.epub").data ("AA.VV.").data ("Anthology").data
    ("x,y").data ("lib").data exampleEnv exampleFSCollide [] (by decide)

theorem C4_witness :
    ¬ (("fiction").data = ([] : Str)) ∧ pyStrip ("fiction").data = ("fiction").data :=
  (C4_tags_trimmed_nonempty (" fiction, , Sci-Fi ,fiction").data).1 ("fiction").data (by decide)

theorem C6_witness : normalize_author_for_path " aa.vv. " = "AAVV" :=
  C6_normalizer_examples.2.1 " aa.vv. " (by decide)

theorem C7_witness :
    (update_book ("u1").data [(("author").data, Value.str ("B").data)] stateU1).table.map
        (fun d => lookupDoc d ("uuid").data)
      = stateU1.table.map (fun d => lookupDoc d ("uuid").data) :=
  C7_update_uuid_preserved_iff_not_supplied stateU1 ("u1").data
    [(("author").data, Value.str ("B").data)] (by decide)

theorem C8_witness :
    get_all_books stateU1
      = some (cacheValues [(("u1").data, bookU1)],
          ⟨stateU1.table, some [(("u1").data, bookU1)], false⟩) :=
  C8_cache_discipline.2.2.2.2.2.1 stateU1 [(("u1").data, bookU1)]
    (fun hd => by simp [stateU1] at hd) (by decide)

theorem C9_witness :
    sort_books stateU12 SortField.added (some false)
      = some ([bookU1, bookU2],
          ⟨stateU12.table, some [(("u1").data, bookU1), (("u2").data, bookU2)], false⟩) := by
  have h := C9_sort_added_stable.1 stateU12 [bookU1, bookU2]
    ⟨stateU12.table, some [(("u1").data, bookU1), (("u2").data, bookU2)], false⟩ (by decide)
  rw [h]
  decide
